import Mathlib

/-!
Shallow embedding of `functions/internal/util/util.go` from
covid19risk/covidwatch-cloud-functions, together with theorems checking the
natural-language specification against it.

Modelling conventions:
* Go `error` values are modelled by the inductive `GoError`.  The package's
  own `statusError` struct (code, message-override, wrapped cause) is the
  constructor `GoError.statusError`; values of every other constructor do not
  implement the `StatusError` interface.
* A Go function returning the `StatusError` interface returns `Option GoError`
  here, with `none` standing for the `nil` interface value; whenever such a
  function returns `some e`, `e` is built by one of the package's error
  constructors and so is a `GoError.statusError`.
* `time.Time` and `time.Duration` are both modelled as `Int` nanoseconds
  (Go's `time.Duration` is an `int64` nanosecond count, and `time.Unix (0, n)`
  denotes the instant `n` nanoseconds after the epoch).
* `strings.ToLower` and the `(?i)` regex flag are modelled with ASCII case
  folding, which covers every comparison the package performs (all pattern
  letters and compared literals are ASCII).
-/

namespace Util

/-- Model of Go `error` values as seen by this package.  `basic` covers
`errors.New` / `fmt.Errorf` errors; `grpcStatus` covers errors carrying a gRPC
status code (as produced by the Firestore client); the `json*` constructors
cover the six error types defined in `encoding/json`; `ioEOF` and
`ioErrUnexpectedEOF` are the sentinel values `io.EOF` and `io.ErrUnexpectedEOF`;
`statusError` is this package's `statusError` struct with its `code`,
`message` and wrapped `error` fields. -/
inductive GoError where
  | basic (msg : String)
  | grpcStatus (code : Nat) (msg : String)
  | jsonMarshaler (msg : String)
  | jsonSyntax (msg : String)
  | jsonUnmarshalField (msg : String)
  | jsonUnmarshalType (msg : String)
  | jsonUnsupportedType (msg : String)
  | jsonUnsupportedValue (msg : String)
  | ioEOF
  | ioErrUnexpectedEOF
  | statusError (code : Nat) (message : String) (cause : GoError)
deriving DecidableEq

/-- The `Error()` method of the modelled error values.  `statusError` embeds
its wrapped `error`, so its `Error()` delegates to the cause. -/
def GoError.errorMessage : GoError → String
  | .basic msg => msg
  | .grpcStatus _ msg => msg
  | .jsonMarshaler msg => msg
  | .jsonSyntax msg => msg
  | .jsonUnmarshalField msg => msg
  | .jsonUnmarshalType msg => msg
  | .jsonUnsupportedType msg => msg
  | .jsonUnsupportedValue msg => msg
  | .ioEOF => "EOF"
  | .ioErrUnexpectedEOF => "unexpected EOF"
  | .statusError _ _ cause => cause.errorMessage

/-- `statusError.HTTPStatusCode`: the `code` field.  Only `statusError` values
implement the `StatusError` interface; the default `0` is never consulted by
the theorems below. -/
def GoError.HTTPStatusCode : GoError → Nat
  | .statusError code _ _ => code
  | _ => 0

/-- `statusError.Message`: the `message` field when non-empty, otherwise the
wrapped error's `Error()` string. -/
def GoError.Message : GoError → String
  | .statusError _ message cause => if message = "" then cause.errorMessage else message
  | e => e.errorMessage

/-- Whether the value implements the `StatusError` interface (i.e. is this
package's `statusError` struct). -/
def GoError.isStatusError : GoError → Bool
  | .statusError _ _ _ => true
  | _ => false

/-- `http.StatusBadRequest`. -/
def StatusBadRequest : Nat := 400

/-- `http.StatusMethodNotAllowed`. -/
def StatusMethodNotAllowed : Nat := 405

/-- `http.StatusInternalServerError`. -/
def StatusInternalServerError : Nat := 500

/-- `http.StatusNotImplemented`. -/
def StatusNotImplemented : Nat := 501

/-- `http.StatusTeapot`. -/
def StatusTeapot : Nat := 418

/-- `NewInternalServerError`: wraps `err` with code 500 and the fixed
message override "internal server error". -/
def NewInternalServerError (err : GoError) : GoError :=
  GoError.statusError StatusInternalServerError "internal server error" err

/-- `NewBadRequestError`: wraps `err` with code 400 and no message override,
so `Message` returns `err.Error()`. -/
def NewBadRequestError (err : GoError) : GoError :=
  GoError.statusError StatusBadRequest "" err

/-- `NewMethodNotAllowedError`: code 405 wrapping
`fmt.Errorf("unsupported method: %v", method)`. -/
def NewMethodNotAllowedError (method : String) : GoError :=
  GoError.statusError StatusMethodNotAllowed "" (GoError.basic ("unsupported method: " ++ method))

/-- `NewNotImplementedError`: code 501 wrapping `fmt.Errorf("not implemented")`. -/
def NewNotImplementedError : GoError :=
  GoError.statusError StatusNotImplemented "" (GoError.basic "not implemented")

/-- `newStatusError`: the given code, no message override, wrapping `err`. -/
def newStatusError (code : Nat) (err : GoError) : GoError :=
  GoError.statusError code "" err

/-- The package-level `NotFoundError` value:
`NewBadRequestError(errors.New("not found"))`. -/
def NotFoundError : GoError :=
  NewBadRequestError (GoError.basic "not found")

/-- `codes.NotFound` from `google.golang.org/grpc/codes`. -/
def codesNotFound : Nat := 5

/-- `codes.Unknown` from `google.golang.org/grpc/codes`. -/
def codesUnknown : Nat := 2

/-- `status.Code` from `google.golang.org/grpc/status`: the code carried by an
error that exposes a gRPC status, `codes.Unknown` for every other (non-nil)
error. -/
def statusCode : GoError → Nat
  | .grpcStatus code _ => code
  | _ => codesUnknown

/-- `FirestoreToStatusError`: pass an existing `StatusError` through unchanged;
map a gRPC `NotFound` error to `NotFoundError`; wrap everything else with
`NewInternalServerError`. -/
def FirestoreToStatusError (err : GoError) : GoError :=
  if err.isStatusError then err
  else if statusCode err = codesNotFound then NotFoundError
  else NewInternalServerError err

/-- `JSONToStatusError`: pass an existing `StatusError` through unchanged; map
the six `encoding/json` error types, `io.EOF` and `io.ErrUnexpectedEOF` to
`NewBadRequestError`; wrap everything else with `NewInternalServerError`. -/
def JSONToStatusError (err : GoError) : GoError :=
  match err with
  | GoError.statusError code message cause => GoError.statusError code message cause
  | GoError.jsonMarshaler _ | GoError.jsonSyntax _ | GoError.jsonUnmarshalField _
  | GoError.jsonUnmarshalType _ | GoError.jsonUnsupportedType _
  | GoError.jsonUnsupportedValue _ => NewBadRequestError err
  | _ =>
    if err = GoError.ioEOF ∨ err = GoError.ioErrUnexpectedEOF then NewBadRequestError err
    else NewInternalServerError err

/-- Helper (not part of the source): recognises the six error types defined in
the `encoding/json` package. -/
def isEncodingJSONError : GoError → Bool
  | .jsonMarshaler _ | .jsonSyntax _ | .jsonUnmarshalField _
  | .jsonUnmarshalType _ | .jsonUnsupportedType _ | .jsonUnsupportedValue _ => true
  | _ => false

/-- Outcome of the underlying `firestore.Client.RunTransaction` machinery,
abstracted as an input (the Firestore client is an external collaborator):
either the callback `f` returned nil and the commit succeeded, or `f` returned
a (non-nil) `StatusError` which the machinery hands back, or the machinery
itself failed with an infrastructure error of its own (which, as the source
comments, cannot have come from `f` and so is not a `StatusError`). -/
inductive TxnOutcome where
  | committed
  | callbackFailed (e : GoError)
  | machineryFailed (e : GoError)
deriving DecidableEq

/-- The error value returned by the underlying
`firestore.Client.RunTransaction` call for each abstract outcome. -/
def firestoreRunTransaction : TxnOutcome → Option GoError
  | .committed => none
  | .callbackFailed e => some e
  | .machineryFailed e => some e

/-- `RunTransaction`: run the underlying transaction, return nil on success,
pass a `StatusError` through unchanged, and wrap any other error with
`NewInternalServerError`. -/
def RunTransaction (outcome : TxnOutcome) : Option GoError :=
  match firestoreRunTransaction outcome with
  | none => none
  | some e => if e.isStatusError then some e else some (NewInternalServerError e)

/-- The two unexported context keys of the package: `fakeClockKey` and
`testFirestoreContextKey`.  Being unexported, no code outside the package can
store values under them. -/
inductive CtxKey where
  | fakeClockKey
  | testFirestoreKey
deriving DecidableEq

/-- Values this package stores in contexts: a `*time.Duration` (stored by
`WithFakeClock`; the duration is an `int64` nanosecond count) or a
`*TestFirestore` (stored by `WithTestFirestore`; opaque here). -/
inductive CtxVal where
  | durationPtr (d : Int)
  | firestorePtr
deriving DecidableEq

/-- Model of `context.Context`: a base context (whose `Value` is nil for the
package's keys) extended by `context.WithValue` frames. -/
inductive Context where
  | base
  | withValue (parent : Context) (key : CtxKey) (val : CtxVal)
deriving DecidableEq

/-- `ctx.Value(key)`: the value of the innermost frame for `key`, nil (`none`)
if there is no such frame. -/
def Context.value : Context → CtxKey → Option CtxVal
  | .base, _ => none
  | .withValue parent k v, key => if key = k then some v else parent.value key

/-- `WithFakeClock`: store a `*time.Duration` under `fakeClockKey`. -/
def WithFakeClock (parent : Context) (t : Int) : Context :=
  Context.withValue parent CtxKey.fakeClockKey (CtxVal.durationPtr t)

/-- `WithTestFirestore`: store a `*TestFirestore` under
`testFirestoreContextKey`. -/
def WithTestFirestore (parent : Context) : Context :=
  Context.withValue parent CtxKey.testFirestoreKey CtxVal.firestorePtr

/-- `time.Unix (sec, nsec)` as nanoseconds since the epoch. -/
def timeUnix (sec nsec : Int) : Int :=
  sec * 1000000000 + nsec

/-- `Now`: type-switch on the value stored under `fakeClockKey` — nil yields
`time.Now()` (the ambient system clock, passed in as `sysNow`), a
`*time.Duration` `t` yields `time.Unix(0, int64(*t))`, and anything else hits
the `panic("unreachable")` branch, modelled as `Except.error`. -/
def Now (sysNow : Int) (ctx : Context) : Except String Int :=
  match ctx.value CtxKey.fakeClockKey with
  | none => Except.ok sysNow
  | some (CtxVal.durationPtr t) => Except.ok (timeUnix 0 t)
  | some CtxVal.firestorePtr => Except.error "unreachable"

/-- Contexts built from a base context by any sequence of this package's
wrappers `WithFakeClock` and `WithTestFirestore`. -/
inductive BuiltByWrappers : Context → Prop
  | base : BuiltByWrappers Context.base
  | fake (parent : Context) (t : Int) :
      BuiltByWrappers parent → BuiltByWrappers (WithFakeClock parent t)
  | store (parent : Context) :
      BuiltByWrappers parent → BuiltByWrappers (WithTestFirestore parent)

/-- The parts of `*http.Request` this package reads: the HTTP method and the
canonical header values `r.Header.Get("X-Forwarded-Proto")` and
`r.Header.Get("Forwarded")` (`Header.Get` returns `""` when the header is
absent, exactly as modelled here). -/
structure Request where
  method : String
  xForwardedProto : String
  forwarded : String
deriving DecidableEq

/-- `strings.ToLower` (ASCII case mapping, which covers every comparison the
package performs). -/
def strToLower (s : String) : String :=
  String.mk (s.data.map Char.toLower)

/-- Case-insensitive literal matching: if `input` starts with the (lowercase)
literal `pat` up to ASCII case, return the matched prefix of `input` (in its
original case) and the remainder. -/
def stripLitCI : List Char → List Char → Option (List Char × List Char)
  | [], input => some ([], input)
  | _ :: _, [] => none
  | p :: ps, c :: cs =>
    if c.toLower = p then
      match stripLitCI ps cs with
      | some (m, rest) => some (c :: m, rest)
      | none => none
    else none

/-- The matching semantics of `protoRegex = (?i)(?:proto=)(https|http)`: find
the leftmost position where `proto=` (case-insensitively) is followed by
`https` or (preferring the earlier alternative) `http`; return the whole match
and the single capture, in original case. -/
def findProtoMatch : List Char → Option (List Char × List Char)
  | [] => none
  | c :: cs =>
    match stripLitCI ['p', 'r', 'o', 't', 'o', '='] (c :: cs) with
    | some (lit, rest) =>
      match stripLitCI ['h', 't', 't', 'p', 's'] rest with
      | some (cap, _) => some (lit ++ cap, cap)
      | none =>
        match stripLitCI ['h', 't', 't', 'p'] rest with
        | some (cap, _) => some (lit ++ cap, cap)
        | none => findProtoMatch cs
    | none => findProtoMatch cs

/-- `protoRegex.FindStringSubmatch`: `nil` (the empty list) on no match,
otherwise the whole match followed by the text of the one capturing group. -/
def protoRegexFindStringSubmatch (s : String) : List String :=
  match findProtoMatch s.data with
  | none => []
  | some (whole, cap) => [String.mk whole, String.mk cap]

/-- The scheme-extraction prefix of `checkHTTPS`: `X-Forwarded-Proto` when
present, else the first `proto=` capture of the `Forwarded` header (with the
source's early `return NewInternalServerError(...)` on a submatch of more than
two elements modelled as `Except.error`), else the empty scheme. -/
def checkHTTPSScheme (r : Request) : Except GoError String :=
  if r.xForwardedProto ≠ "" then
    Except.ok (strToLower r.xForwardedProto)
  else if r.forwarded ≠ "" then
    let m := protoRegexFindStringSubmatch r.forwarded
    if m.length = 2 then Except.ok (strToLower (m.getD 1 ""))
    else if m.length > 2 then
      Except.error (NewInternalServerError
        (GoError.basic "Header \x27forward\x27 has more than 2 elements"))
    else Except.ok ""
  else Except.ok ""

/-- `checkHTTPS`: extract the forwarded scheme and reject any request whose
scheme is not `https` with a code-418 (`http.StatusTeapot`) error. -/
def checkHTTPS (r : Request) : Option GoError :=
  match checkHTTPSScheme r with
  | Except.error e => some e
  | Except.ok scheme =>
    if scheme ≠ "https" then
      some (newStatusError StatusTeapot
        (GoError.basic "unsupported protocol HTTP; only HTTPS is supported"))
    else none

/-- The parts of the package's `Context` struct that the modelled methods
read: the `*http.Request` it was constructed from. -/
structure UtilContext where
  req : Request
deriving DecidableEq

/-- `Context.ValidateRequestMethod`: nil when the request's method equals
`method`, otherwise `NewMethodNotAllowedError` applied to the request's actual
method (the `err` parameter is unused by the source). -/
def ValidateRequestMethod (c : UtilContext) (method err : String) : Option GoError :=
  if c.req.method ≠ method then some (NewMethodNotAllowedError c.req.method)
  else none

/-- Substring containment on strings (used to state what it means for a
`Forwarded` header to contain a `proto=https` parameter). -/
def startsWithChars : List Char → List Char → Bool
  | [], _ => true
  | _ :: _, [] => false
  | p :: ps, c :: cs => p == c && startsWithChars ps cs

/-- Whether `pat` occurs as a contiguous substring of `s` (character lists). -/
def containsChars : List Char → List Char → Bool
  | [], pat => pat.isEmpty
  | c :: cs, pat => startsWithChars pat (c :: cs) || containsChars cs pat

/-- Whether `pat` occurs as a contiguous substring of `s`. -/
def containsSubstring (s pat : String) : Bool :=
  containsChars s.data pat.data

/-! ### Helper lemmas shared by the claim theorems -/

/-- The submatch list of `protoRegex` has length 0 (no match) or exactly 2
(whole match plus the single capturing group). -/
theorem protoRegexFindStringSubmatch_length (s : String) :
    (protoRegexFindStringSubmatch s).length = 0 ∨
      (protoRegexFindStringSubmatch s).length = 2 := by
  cases hm : findProtoMatch s.data with
  | none => left; simp [protoRegexFindStringSubmatch, hm]
  | some p => right; simp [protoRegexFindStringSubmatch, hm]

/-- `checkHTTPSScheme` never takes its error branch: the scheme extraction
always succeeds. -/
theorem checkHTTPSScheme_ok (r : Request) :
    ∃ s, checkHTTPSScheme r = Except.ok s := by
  unfold checkHTTPSScheme
  by_cases hx : r.xForwardedProto = ""
  · by_cases hf : r.forwarded = ""
    · simp [hx, hf]
    · rcases protoRegexFindStringSubmatch_length r.forwarded with h0 | h2
      · simp [hx, hf, h0]
      · simp [hx, hf, h2]
  · simp [hx]

/-- The only error `checkHTTPS` ever returns is the code-418 rejection. -/
theorem checkHTTPS_error_eq (r : Request) (e : GoError)
    (h : checkHTTPS r = some e) :
    e = newStatusError StatusTeapot
      (GoError.basic "unsupported protocol HTTP; only HTTPS is supported") := by
  obtain ⟨s, hs⟩ := checkHTTPSScheme_ok r
  unfold checkHTTPS at h
  rw [hs] at h
  by_cases h2 : s = "https"
  · simp [h2] at h
  · simp [h2] at h
    exact h.symm

/-! ### Claim theorems -/

/-- Claim C2: for every error `err`, the `StatusError` returned by
`NewInternalServerError err` has `Message` equal to the fixed generic string
"internal server error", independent of `err`; the wrapped cause is never part
of the caller-visible message. -/
theorem internal_error_generic_message (err : GoError) :
    GoError.Message (NewInternalServerError err) = "internal server error" := by
  simp [NewInternalServerError, GoError.Message]

/-- Claim C3: `RunTransaction` returns nil exactly when the underlying
transaction commits; a `StatusError` returned by the callback `f` is passed
through unchanged; and every other non-nil error from the transaction
machinery is wrapped as an `InternalServerError` `StatusError` (so no
transaction failure is ever silently swallowed). -/
theorem runTransaction_propagation (o : TxnOutcome) :
    (RunTransaction o = none ↔ o = TxnOutcome.committed) ∧
    (∀ e, GoError.isStatusError e = true →
      RunTransaction (TxnOutcome.callbackFailed e) = some e) ∧
    (∀ e, GoError.isStatusError e = false →
      RunTransaction (TxnOutcome.machineryFailed e) = some (NewInternalServerError e)) := by
  refine ⟨?_, ?_, ?_⟩
  · cases o with
    | committed => simp [RunTransaction, firestoreRunTransaction]
    | callbackFailed e =>
      simp only [RunTransaction, firestoreRunTransaction]
      constructor
      · intro h
        by_cases hs : e.isStatusError <;> simp [hs] at h
      · intro h
        exact absurd h (by simp)
    | machineryFailed e =>
      simp only [RunTransaction, firestoreRunTransaction]
      constructor
      · intro h
        by_cases hs : e.isStatusError <;> simp [hs] at h
      · intro h
        exact absurd h (by simp)
  · intro e he
    simp [RunTransaction, firestoreRunTransaction, he]
  · intro e he
    simp [RunTransaction, firestoreRunTransaction, he]

/-- Witness for C3: a concrete `StatusError` returned by the callback is
passed through unchanged. -/
theorem runTransaction_propagation_witness :
    RunTransaction (TxnOutcome.callbackFailed (NewBadRequestError (GoError.basic "bad"))) =
      some (NewBadRequestError (GoError.basic "bad")) :=
  (runTransaction_propagation TxnOutcome.committed).2.1
    (NewBadRequestError (GoError.basic "bad")) rfl

/-- Claim C5: `Now` on a context carrying a fake clock `t` returns the fixed
fake time `time.Unix(0, int64(t))`, deterministically (independently of the
system clock); on a context with no fake clock attached it returns the system
clock's `time.Now()`. -/
theorem now_fake_clock (ctx : Context) (t sysNow sysNow2 : Int) :
    Now sysNow (WithFakeClock ctx t) = Except.ok (timeUnix 0 t) ∧
    Now sysNow (WithFakeClock ctx t) = Now sysNow2 (WithFakeClock ctx t) ∧
    (ctx.value CtxKey.fakeClockKey = none → Now sysNow ctx = Except.ok sysNow) := by
  refine ⟨?_, ?_, ?_⟩
  · simp [Now, WithFakeClock, Context.value]
  · simp [Now, WithFakeClock, Context.value]
  · intro h
    simp [Now, h]

/-- Witness for C5: the base context has no fake clock, and `Now` on it
returns the system clock value. -/
theorem now_fake_clock_witness :
    Now 42 Context.base = Except.ok 42 :=
  (now_fake_clock Context.base 0 42 0).2.2 rfl

/-- Claim C6: `ValidateRequestMethod` returns nil if and only if the request's
HTTP method equals `method`; otherwise it returns a `StatusError` with code
405 whose `Message` is "unsupported method: " followed by the request's actual
method. -/
theorem validate_request_method (c : UtilContext) (method errStr : String) :
    (ValidateRequestMethod c method errStr = none ↔ c.req.method = method) ∧
    (c.req.method ≠ method →
      ∃ e, ValidateRequestMethod c method errStr = some e ∧
        GoError.HTTPStatusCode e = 405 ∧
        GoError.Message e = "unsupported method: " ++ c.req.method) := by
  constructor
  · by_cases h : c.req.method = method <;>
      simp [ValidateRequestMethod, h]
  · intro h
    refine ⟨NewMethodNotAllowedError c.req.method, ?_, ?_, ?_⟩
    · simp [ValidateRequestMethod, h]
    · simp [NewMethodNotAllowedError, GoError.HTTPStatusCode, StatusMethodNotAllowed]
    · simp [NewMethodNotAllowedError, GoError.Message, GoError.errorMessage]

/-- Witness for C6: a concrete PUT request checked against POST is rejected
with code 405 and the expected message. -/
theorem validate_request_method_witness :
    ∃ e, ValidateRequestMethod ⟨⟨"PUT", "", ""⟩⟩ "POST" "msg" = some e ∧
      GoError.HTTPStatusCode e = 405 ∧
      GoError.Message e = "unsupported method: " ++ "PUT" :=
  (validate_request_method ⟨⟨"PUT", "", ""⟩⟩ "POST" "msg").2 (by decide)

/-- Claim C7: `FirestoreToStatusError` returns an error that is already a
`StatusError` unchanged; it maps every other error whose gRPC code is
`NotFound` to the `BadRequest` (400) `StatusError` with message "not found";
and it maps every other error to an `InternalServerError` (500). -/
theorem firestore_error_mapping (err : GoError) :
    (GoError.isStatusError err = true → FirestoreToStatusError err = err) ∧
    (GoError.isStatusError err = false → statusCode err = codesNotFound →
      FirestoreToStatusError err = NotFoundError ∧
      GoError.HTTPStatusCode (FirestoreToStatusError err) = 400 ∧
      GoError.Message (FirestoreToStatusError err) = "not found") ∧
    (GoError.isStatusError err = false → statusCode err ≠ codesNotFound →
      FirestoreToStatusError err = NewInternalServerError err ∧
      GoError.HTTPStatusCode (FirestoreToStatusError err) = 500) := by
  refine ⟨?_, ?_, ?_⟩
  · intro h
    simp [FirestoreToStatusError, h]
  · intro h hnf
    refine ⟨by simp [FirestoreToStatusError, h, hnf], ?_, ?_⟩
    · simp [FirestoreToStatusError, h, hnf, NotFoundError, NewBadRequestError,
        GoError.HTTPStatusCode, StatusBadRequest]
    · simp [FirestoreToStatusError, h, hnf, NotFoundError, NewBadRequestError,
        GoError.Message, GoError.errorMessage]
  · intro h hnf
    refine ⟨by simp [FirestoreToStatusError, h, hnf], ?_⟩
    simp [FirestoreToStatusError, h, hnf, NewInternalServerError,
      GoError.HTTPStatusCode, StatusInternalServerError]

/-- Witness for C7: a concrete gRPC `NotFound` error maps to the 400
"not found" error, and a concrete unknown error maps to a 500. -/
theorem firestore_error_mapping_witness :
    (FirestoreToStatusError (GoError.grpcStatus 5 "missing") = NotFoundError ∧
      GoError.HTTPStatusCode (FirestoreToStatusError (GoError.grpcStatus 5 "missing")) = 400 ∧
      GoError.Message (FirestoreToStatusError (GoError.grpcStatus 5 "missing")) = "not found") ∧
    (FirestoreToStatusError (GoError.basic "boom") = NewInternalServerError (GoError.basic "boom") ∧
      GoError.HTTPStatusCode (FirestoreToStatusError (GoError.basic "boom")) = 500) :=
  ⟨(firestore_error_mapping (GoError.grpcStatus 5 "missing")).2.1 rfl rfl,
    (firestore_error_mapping (GoError.basic "boom")).2.2 rfl (by decide)⟩

/-- Claim C8: `JSONToStatusError` maps every error of a type defined in
`encoding/json`, as well as `io.EOF` and `io.ErrUnexpectedEOF`, to a
`BadRequest` (400) `StatusError` preserving the error's own message, and every
other error that is not already a `StatusError` to an `InternalServerError`
(500). -/
theorem json_error_mapping (err : GoError) :
    ((isEncodingJSONError err = true ∨ err = GoError.ioEOF ∨
        err = GoError.ioErrUnexpectedEOF) →
      JSONToStatusError err = NewBadRequestError err ∧
      GoError.HTTPStatusCode (JSONToStatusError err) = 400 ∧
      GoError.Message (JSONToStatusError err) = GoError.errorMessage err) ∧
    ((GoError.isStatusError err = false ∧ isEncodingJSONError err = false ∧
        err ≠ GoError.ioEOF ∧ err ≠ GoError.ioErrUnexpectedEOF) →
      JSONToStatusError err = NewInternalServerError err ∧
      GoError.HTTPStatusCode (JSONToStatusError err) = 500) := by
  constructor
  · intro h
    have hb : JSONToStatusError err = NewBadRequestError err := by
      cases err <;> simp_all [isEncodingJSONError, JSONToStatusError]
    refine ⟨hb, ?_, ?_⟩
    · rw [hb]
      simp [NewBadRequestError, GoError.HTTPStatusCode, StatusBadRequest]
    · rw [hb]
      simp [NewBadRequestError, GoError.Message]
  · intro h
    obtain ⟨hs, hj, he1, he2⟩ := h
    have hb : JSONToStatusError err = NewInternalServerError err := by
      cases err <;> simp_all [isEncodingJSONError, JSONToStatusError, GoError.isStatusError]
    refine ⟨hb, ?_⟩
    rw [hb]
    simp [NewInternalServerError, GoError.HTTPStatusCode, StatusInternalServerError]

/-- Witness for C8: a concrete JSON syntax error maps to a 400 keeping its
message, and a concrete unrelated error maps to a 500. -/
theorem json_error_mapping_witness :
    (JSONToStatusError (GoError.jsonSyntax "bad json") =
        NewBadRequestError (GoError.jsonSyntax "bad json") ∧
      GoError.HTTPStatusCode (JSONToStatusError (GoError.jsonSyntax "bad json")) = 400 ∧
      GoError.Message (JSONToStatusError (GoError.jsonSyntax "bad json")) =
        GoError.errorMessage (GoError.jsonSyntax "bad json")) ∧
    (JSONToStatusError (GoError.basic "disk on fire") =
        NewInternalServerError (GoError.basic "disk on fire") ∧
      GoError.HTTPStatusCode (JSONToStatusError (GoError.basic "disk on fire")) = 500) :=
  ⟨(json_error_mapping (GoError.jsonSyntax "bad json")).1 (Or.inl rfl),
    (json_error_mapping (GoError.basic "disk on fire")).2 (by refine ⟨rfl, rfl, ?_, ?_⟩ <;> decide)⟩

/-- Claim C9: for every context built from a base context by any sequence of
this package's wrappers (`WithFakeClock`, `WithTestFirestore`), the value
stored under the unexported `fakeClockKey` is either absent or a
`*time.Duration`, so `Now` never takes its `panic("unreachable")` branch. -/
theorem now_never_panics (ctx : Context) (h : BuiltByWrappers ctx) (sysNow : Int) :
    (ctx.value CtxKey.fakeClockKey = none ∨
      ∃ d, ctx.value CtxKey.fakeClockKey = some (CtxVal.durationPtr d)) ∧
    ∃ v, Now sysNow ctx = Except.ok v := by
  have hval : ctx.value CtxKey.fakeClockKey = none ∨
      ∃ d, ctx.value CtxKey.fakeClockKey = some (CtxVal.durationPtr d) := by
    induction h with
    | base => exact Or.inl rfl
    | fake parent t hp ih =>
      right
      exact ⟨t, by simp [WithFakeClock, Context.value]⟩
    | store parent hp ih =>
      have : (WithTestFirestore parent).value CtxKey.fakeClockKey =
          parent.value CtxKey.fakeClockKey := by
        simp [WithTestFirestore, Context.value]
      rw [this]
      exact ih
  refine ⟨hval, ?_⟩
  rcases hval with hn | ⟨d, hd⟩
  · exact ⟨sysNow, by simp [Now, hn]⟩
  · exact ⟨timeUnix 0 d, by simp [Now, hd]⟩

/-- Witness for C9: a concrete context built by both wrappers in sequence
yields a successful `Now`. -/
theorem now_never_panics_witness :
    ∃ v, Now 7 (WithTestFirestore (WithFakeClock Context.base 3)) = Except.ok v :=
  (now_never_panics (WithTestFirestore (WithFakeClock Context.base 3))
    (BuiltByWrappers.store _ (BuiltByWrappers.fake _ 3 BuiltByWrappers.base)) 7).2

/-- The status classes actually produced by the package's error constructors
and checks. -/
def statusClasses : List Nat := [400, 405, 501, 500, 418]

/-- Claim C1, counterexample: `checkHTTPS` on a request whose
`X-Forwarded-Proto` header is "http" constructs a `StatusError` whose
`HTTPStatusCode` (418, `http.StatusTeapot`) is outside the four claimed status
classes 400, 405, 501, 500. -/
theorem status_taxonomy_counterexample :
    ∃ e, checkHTTPS { method := "GET", xForwardedProto := "http", forwarded := "" } = some e ∧
      ¬ GoError.HTTPStatusCode e ∈ ([400, 405, 501, 500] : List Nat) := by
  refine ⟨newStatusError StatusTeapot
    (GoError.basic "unsupported protocol HTTP; only HTTPS is supported"), by decide, by decide⟩

/-- Claim C1 (amended): every `StatusError` constructed by the package's error
constructors and checks has an `HTTPStatusCode` among exactly five status
classes — `BadRequest` (400), `MethodNotAllowed` (405), `NotImplemented`
(501), `InternalServerError` (500), and `Teapot` (418, the rejection code of
`checkHTTPS`); for the two converters this is about the errors they construct,
i.e. their behaviour on inputs that are not already `StatusError`s. -/
theorem status_taxonomy_amended (err : GoError) (method : String) (r : Request) :
    GoError.HTTPStatusCode (NewBadRequestError err) ∈ statusClasses ∧
    GoError.HTTPStatusCode (NewMethodNotAllowedError method) ∈ statusClasses ∧
    GoError.HTTPStatusCode NewNotImplementedError ∈ statusClasses ∧
    GoError.HTTPStatusCode (NewInternalServerError err) ∈ statusClasses ∧
    (GoError.isStatusError err = false →
      GoError.HTTPStatusCode (FirestoreToStatusError err) ∈ statusClasses) ∧
    (GoError.isStatusError err = false →
      GoError.HTTPStatusCode (JSONToStatusError err) ∈ statusClasses) ∧
    (∀ e, checkHTTPS r = some e → GoError.HTTPStatusCode e ∈ statusClasses) := by
  refine ⟨?_, ?_, ?_, ?_, ?_, ?_, ?_⟩
  · simp [NewBadRequestError, GoError.HTTPStatusCode, StatusBadRequest, statusClasses]
  · simp [NewMethodNotAllowedError, GoError.HTTPStatusCode, StatusMethodNotAllowed,
      statusClasses]
  · simp [NewNotImplementedError, GoError.HTTPStatusCode, StatusNotImplemented, statusClasses]
  · simp [NewInternalServerError, GoError.HTTPStatusCode, StatusInternalServerError,
      statusClasses]
  · intro h
    by_cases hn : statusCode err = codesNotFound <;>
      simp [FirestoreToStatusError, h, hn, NotFoundError, NewBadRequestError,
        NewInternalServerError, GoError.HTTPStatusCode, StatusBadRequest,
        StatusInternalServerError, statusClasses]
  · intro h
    cases err <;>
      simp_all [JSONToStatusError, GoError.isStatusError, NewBadRequestError,
        NewInternalServerError, GoError.HTTPStatusCode, StatusBadRequest,
        StatusInternalServerError, statusClasses]
  · intro e he
    rw [checkHTTPS_error_eq r e he]
    simp [newStatusError, GoError.HTTPStatusCode, StatusTeapot, statusClasses]

/-- Witness for the amended C1: concrete errors through each converter and a
concrete `checkHTTPS` rejection all land in the five status classes. -/
theorem status_taxonomy_amended_witness :
    GoError.HTTPStatusCode (FirestoreToStatusError (GoError.basic "boom")) ∈ statusClasses ∧
    GoError.HTTPStatusCode (JSONToStatusError (GoError.basic "boom")) ∈ statusClasses ∧
    GoError.HTTPStatusCode (newStatusError StatusTeapot
      (GoError.basic "unsupported protocol HTTP; only HTTPS is supported")) ∈ statusClasses := by
  have h := status_taxonomy_amended (GoError.basic "boom") "GET"
    { method := "GET", xForwardedProto := "http", forwarded := "" }
  exact ⟨h.2.2.2.2.1 rfl, h.2.2.2.2.2.1 rfl, h.2.2.2.2.2.2 _ (by decide)⟩

/-- Claim C4, counterexample: a request with no `X-Forwarded-Proto` header
whose `Forwarded` header does contain a `proto=https` parameter is
nevertheless rejected by `checkHTTPS`, because the code only consults the
first `proto=` parameter (here `proto=http`). -/
theorem checkHTTPS_iff_counterexample :
    containsSubstring "proto=http;proto=https" "proto=https" = true ∧
    ({ method := "GET", xForwardedProto := "", forwarded := "proto=http;proto=https" } :
      Request).xForwardedProto = "" ∧
    checkHTTPS { method := "GET", xForwardedProto := "", forwarded := "proto=http;proto=https" } ≠ none := by
  refine ⟨by decide, by decide, by decide⟩

/-- Claim C4 (amended): `checkHTTPS r` returns nil if and only if
`X-Forwarded-Proto` lowercases to "https", or `X-Forwarded-Proto` is absent
and the first (leftmost) `proto=(https|http)` parameter of the `Forwarded`
header — the only one the code consults — captures "https"
(case-insensitively); every other request gets a `StatusError`. -/
theorem checkHTTPS_accepts_iff (r : Request) :
    checkHTTPS r = none ↔
      (strToLower r.xForwardedProto = "https" ∨
        (r.xForwardedProto = "" ∧
          ∃ w c, findProtoMatch r.forwarded.data = some (w, c) ∧
            strToLower (String.mk c) = "https")) := by
  have hne : ¬ strToLower "" = "https" := by decide
  unfold checkHTTPS checkHTTPSScheme
  by_cases hx : r.xForwardedProto = ""
  · by_cases hf : r.forwarded = ""
    · simp [hx, hf, findProtoMatch, hne]
    · cases hm : findProtoMatch r.forwarded.data with
      | none =>
        simp [hx, hf, protoRegexFindStringSubmatch, hm, hne]
      | some p =>
        obtain ⟨w, c⟩ := p
        by_cases hc : strToLower (String.mk c) = "https"
        · simp [hx, hf, protoRegexFindStringSubmatch, hm, hc, hne]
          exact ⟨w, c, ⟨rfl, rfl⟩, hc⟩
        · simp [hx, hf, protoRegexFindStringSubmatch, hm, hc, hne]
  · by_cases hs : strToLower r.xForwardedProto = "https" <;>
      simp [hx, hs]

/-- Claim C10: `protoRegex` has exactly one capturing group, so
`FindStringSubmatch` returns either no match or a slice of length exactly 2 —
never more — and consequently `checkHTTPS` never returns the
"Header 'forward' has more than 2 elements" `InternalServerError` (its result,
when an error at all, never carries status 500). -/
theorem protoRegex_no_internal_error :
    (∀ s : String, (protoRegexFindStringSubmatch s).length = 0 ∨
      (protoRegexFindStringSubmatch s).length = 2) ∧
    (∀ (r : Request) (e : GoError), checkHTTPS r = some e →
      GoError.HTTPStatusCode e ≠ StatusInternalServerError) := by
  constructor
  · exact protoRegexFindStringSubmatch_length
  · intro r e he
    rw [checkHTTPS_error_eq r e he]
    simp [newStatusError, GoError.HTTPStatusCode, StatusTeapot, StatusInternalServerError]

/-- Witness for C10: the concrete rejection error returned by `checkHTTPS` on
a request with no forwarded protocol is not an internal server error. -/
theorem protoRegex_no_internal_error_witness :
    GoError.HTTPStatusCode (newStatusError StatusTeapot
      (GoError.basic "unsupported protocol HTTP; only HTTPS is supported")) ≠
      StatusInternalServerError :=
  protoRegex_no_internal_error.2 { method := "GET", xForwardedProto := "", forwarded := "for=me" } _ (by decide)

end Util
